import Mathlib

/-!
# Wikimedia EventStreams client (`internal/streams/client.go`)

A shallow embedding of the subscription client: the `Client` record, the
endpoint builder `url`, the per-message dispatcher inside
`UnmarshalJSONBasedOnStream`, and the retry loop `GetStreamData`.

Conventions of the embedding

* Go strings are `String`; a message payload (`[]byte`) is a `List UInt8`.
* Instants and durations are integers counting nanoseconds.  An instant is
  counted from the Go zero `time.Time` (1 January of year 1), so the zero
  value `time.Time{}` is `0`.
* The transport (`sse.Client.Subscribe`), the clock (`time.Now`) and the JSON
  decoder (`json.Unmarshal`) are the environment: they are parameters of the
  definitions.  A handler is observed through the list of values it was
  called with.
* The retry loop may run forever, so it is driven by a fuel argument that
  bounds the number of loop iterations.
-/

namespace Streams

/-! ## Constants -/

/-- DefaultURL is the URL of the Wikimedia EventStreams service. -/
def DefaultURL : String := "https://stream.wikimedia.org/v2/stream"

/-- One second (`time.Second`), in nanoseconds. -/
def Second : Int := 1000000000

/-- One minute (`time.Minute`), in nanoseconds. -/
def Minute : Int := 60 * Second

/-- The constant `resetInterval = time.Minute * 10`. -/
def resetInterval : Int := Minute * 10

/-- The constant `retries = 3`. -/
def retries : Nat := 3

/-! ## The client record and its accessors -/

/-- A Go `interface{}` predicate value; the client stores it and never reads it. -/
abbrev Any := String

/-- Client is used to subscribe to the Wikimedia EventStreams service. -/
structure Client where
  BaseURL : String
  Predicates : List (String × Any)
  Since : String
  lastTimestamp : String
deriving DecidableEq, Repr

/-- NewClient returns an initialized Client; the parameter `event` is not used
by the body. -/
def NewClient (_event : String) : Client :=
  { BaseURL := DefaultURL, Predicates := [], Since := "", lastTimestamp := "" }

/-- Match adds a new predicate: `client.Predicates[attr] = value`. -/
def Match (client : Client) (attr : String) (value : Any) : Client :=
  { client with
    Predicates := (attr, value) :: client.Predicates.filter (fun p => p.1 ≠ attr) }

/-- LastTimestamp returns the field `lastTimestamp`. -/
def LastTimestamp (client : Client) : String :=
  client.lastTimestamp

/-- The method `url`.  It has a pointer receiver, so the client is returned
next to the string that was built. -/
def url (client : Client) (stream : String) : String × Client :=
  let b := client.BaseURL ++ "/" ++ stream
  let b := if client.Since ≠ "" then b ++ "?since=" ++ client.Since else b
  (b, client)

/-! ## Percent-encoding (the encoding the specification asks of `url`) -/

/-- Characters `net/url` leaves alone in a query component. -/
def unreserved (c : Char) : Bool :=
  c.isAlphanum || c = '-' || c = '_' || c = '.' || c = '~'

/-- Upper-case hexadecimal digit of a number below sixteen. -/
def upperhex (n : Nat) : Char :=
  "0123456789ABCDEF".data.getD n '0'

/-- The escape of one character: itself when unreserved, `+` for a space, and
`%XX` for every byte of its UTF-8 encoding otherwise. -/
def escapeChar (c : Char) : List Char :=
  if unreserved c then [c]
  else if c = ' ' then ['+']
  else (String.utf8EncodeChar c).flatMap
    (fun b => ['%', upperhex (b.toNat / 16), upperhex (b.toNat % 16)])

/-- The function `url.QueryEscape` of the Go standard library: the
percent-encoded form of a query value.  The source does not call it; it is
the encoding named by the specification, used to compare with `url`. -/
def QueryEscape (s : String) : String :=
  ⟨s.data.flatMap escapeChar⟩

/-! ## Time -/

/-- The largest `time.Duration` (an `int64` of nanoseconds). -/
def maxDuration : Int := 2 ^ 63 - 1

/-- The smallest `time.Duration`. -/
def minDuration : Int := -(2 ^ 63)

/-- The function `time.Since(t)` evaluated when the clock reads `now`: the
difference `now - t`, which `Time.Sub` saturates to the range of a
`time.Duration`. -/
def timeSince (now t : Int) : Int :=
  if now - t > maxDuration then maxDuration
  else if now - t < minDuration then minDuration
  else now - t

/-! ## The backoff counter

The loop uses `github.com/jpillora/backoff` with a zero-valued
`backoff.Backoff{}`: no jitter, and the defaults `Min = 100ms`, `Max = 10s`,
`Factor = 2` are applied by `ForAttempt`. -/

/-- Modelled from the spec: the backoff dependency
(`github.com/jpillora/backoff`) is not under `src/`.  The state is the attempt
counter (a `uint64`); minimum delay, maximum delay and growth factor are left
at their zero values by `&backoff.Backoff{}`, so the defaults apply. -/
structure Backoff where
  attempt : Nat
deriving DecidableEq, Repr

/-- Modelled from the spec: `delay = min(maxDelay, baseDelay × growthFactor^attempt)`
with the defaults 100ms, 10s and 2. -/
def Backoff.ForAttempt (a : Nat) : Int :=
  let min : Int := 100 * 1000000
  let max : Int := 10 * Second
  let dur : Int := min * 2 ^ a
  if dur > max then max else dur

/-- Modelled from the spec: `Duration` returns the delay for the current
attempt and increments the attempt counter, so that the counter reads 1, 2, 3
after the first, second and third failure. -/
def Backoff.Duration (b : Backoff) : Int × Backoff :=
  (Backoff.ForAttempt b.attempt, { attempt := (b.attempt + 1) % 2 ^ 64 })

/-- Modelled from the spec: `Reset` restarts the attempt counter at zero. -/
def Backoff.Reset (_b : Backoff) : Backoff :=
  { attempt := 0 }

/-- Modelled from the spec: `Attempt` returns the attempt counter. -/
def Backoff.Attempt (b : Backoff) : Nat :=
  b.attempt

/-! ## Handlers seen through `reflect` -/

/-- Go types as far as the dispatcher looks at them: a pointer type
(`Kind() == reflect.Ptr`, with its `Elem()`) or any other type, identified by
its name. -/
inductive GoType where
  | named (name : String)
  | ptr (elem : GoType)
deriving DecidableEq, Repr

/-- The loop `for actualType.Kind() == reflect.Ptr { actualType = actualType.Elem() }`. -/
def stripPtr : GoType → GoType
  | GoType.named n => GoType.named n
  | GoType.ptr e => stripPtr e

/-- The value passed as `handlerFunc`: either not a function
(`handler.Kind() != reflect.Func`, which includes `nil`), or a function with
the listed parameter types (`NumIn()` is the length, `In(i)` the i-th entry).
Variadic functions and nil function values are outside the model. -/
inductive Handler where
  | nonFunc
  | func (ins : List GoType)
deriving DecidableEq, Repr

/-! ## Environment -/

/-- The decoder `json.Unmarshal(data, ptr)` for a pointer to a fresh value of
the given type: the decoded value, or the error text. -/
abbrev Decoder (V : Type) := GoType → List UInt8 → Except String V

/-- One event handed to the callback by the transport: its `Data` field, and
the reading of `time.Now()` at the callback's last statement. -/
structure Event where
  Data : List UInt8
  now : Int
deriving DecidableEq, Repr

/-- What one call of `sseClient.Subscribe` does: the events it yields, in
order, and the error it returns when the connection ends (`none` is `nil`). -/
structure Attempt where
  events : List Event
  result : Option String
deriving DecidableEq, Repr

/-- The world around one call of `GetStreamData`: the behaviour of the k-th
call of `Subscribe` (which may depend on the URL requested), and the reading
of the clock at the `time.Since` call of the i-th loop iteration. -/
structure World where
  transport : Nat → String → Attempt
  clock : Nat → Int

/-! ## Program state -/

/-- Everything `GetStreamData` can change, together with what an observer
sees: the URLs of the subscriptions opened, the values the handler was called
with, the delays slept, the number of `Reset` calls and the attempt counter
read after each `Duration` call. -/
structure State (V : Type) where
  client : Client
  bOff : Backoff
  lastSub : Int
  opened : List String
  calls : List V
  slept : List Int
  resets : Nat
  attempts : List Nat
  iter : Nat

/-- How a bounded run of `GetStreamData` stands: it returned (`none` is a nil
error), or the loop is still going when the fuel is used up. -/
inductive Outcome where
  | returned (err : Option String)
  | running
deriving DecidableEq, Repr

/-! ## The dispatcher -/

/-- The callback passed to `sseClient.Subscribe`, for a handler whose
parameter types are `handlerType`. -/
def callback {V : Type} (unmarshal : Decoder V) (handlerType : List GoType)
    (msg : Event) (s : State V) : State V :=
  if msg.Data.length = 0 then s
  else if handlerType.length ≠ 1 then
    -- log: "Handler function must take exactly one parameter"
    s
  else
    match handlerType with
    | [] => s
    | in0 :: _ =>
      let eventDataPtr := GoType.ptr in0
      let actualType := stripPtr eventDataPtr
      if actualType ≠ in0 then
        -- log: "Handler function parameter type doesn't match the event type"
        s
      else
        match unmarshal in0 msg.Data with
        | Except.error _ =>
          -- log: "Error deserializing JSON event"
          s
        | Except.ok v =>
          { s with calls := s.calls ++ [v], lastSub := msg.now }

/-- The callback applied to the events of one subscription, in the order the
transport yields them. -/
def deliver {V : Type} (unmarshal : Decoder V) (handlerType : List GoType)
    (events : List Event) (s : State V) : State V :=
  events.foldl (fun st msg => callback unmarshal handlerType msg st) s

/-- The call `sseClient.Subscribe("message", callback)`: the subscription is
opened at `u`, every event the transport yields goes through the callback,
and the transport's error is returned. -/
def Subscribe {V : Type} (w : World) (unmarshal : Decoder V) (u : String)
    (handlerType : List GoType) (s : State V) : Option String × State V :=
  let a := w.transport s.opened.length u
  let s := { s with opened := s.opened ++ [u] }
  (a.result, deliver unmarshal handlerType a.events s)

/-- The method `UnmarshalJSONBasedOnStream`; `lastSub` is the field of the
state. -/
def UnmarshalJSONBasedOnStream {V : Type} (w : World) (unmarshal : Decoder V)
    (stream : String) (handlerFunc : Handler) (s : State V) :
    Option String × State V :=
  let (u, client) := url s.client stream
  let s := { s with client := client }
  match handlerFunc with
  | Handler.nonFunc => (some "handler must be a function", s)
  | Handler.func ins => Subscribe w unmarshal u ins s

/-! ## The retry loop -/

/-- The `for` loop of `GetStreamData`, run for at most `fuel` iterations. -/
def loop {V : Type} (w : World) (unmarshal : Decoder V) (stream : String)
    (handlerFunc : Handler) : Nat → State V → Outcome × State V
  | 0, s => (Outcome.running, s)
  | fuel + 1, s =>
    let s := { s with lastSub := 0 }
    let (err, s) := UnmarshalJSONBasedOnStream w unmarshal stream handlerFunc s
    match err with
    | none => (Outcome.returned none, s)
    | some e =>
      let s :=
        if timeSince (w.clock s.iter) s.lastSub ≥ resetInterval then
          { s with bOff := s.bOff.Reset, resets := s.resets + 1 }
        else s
      let (d, b) := s.bOff.Duration
      let s := { s with bOff := b, slept := s.slept ++ [d],
                        attempts := s.attempts ++ [b.Attempt] }
      if b.Attempt ≥ retries then (Outcome.returned (some e), s)
      else
        loop w unmarshal stream handlerFunc fuel
          { s with client := { s.client with Since := s.client.lastTimestamp },
                   iter := s.iter + 1 }

/-- The state in which `GetStreamData` starts: a fresh `backoff.Backoff{}` and
nothing observed yet. -/
def start {V : Type} (client : Client) : State V :=
  { client := client, bOff := { attempt := 0 }, lastSub := 0, opened := [],
    calls := [], slept := [], resets := 0, attempts := [], iter := 0 }

/-- The method `GetStreamData`, run for at most `fuel` loop iterations. -/
def GetStreamData {V : Type} (w : World) (unmarshal : Decoder V) (client : Client)
    (stream : String) (handlerFunc : Handler) (fuel : Nat) : Outcome × State V :=
  loop w unmarshal stream handlerFunc fuel (start client)

/-! ## Specification-side definitions -/

/-- The value an event contributes under the specification: the decoding of
its data into `T` when the data is non-empty and decodes, nothing otherwise. -/
def decoded {V : Type} (unmarshal : Decoder V) (T : GoType) (msg : Event) : Option V :=
  if msg.Data = [] then none
  else
    match unmarshal T msg.Data with
    | Except.ok v => some v
    | Except.error _ => none

/-- The value `lastSub` has when a subscription that yielded `events` ends:
the clock reading of the last event that reached the handler, or the zero
time when none did. -/
def lastDelivery {V : Type} (unmarshal : Decoder V) (handlerType : List GoType)
    (events : List Event) : Int :=
  (deliver unmarshal handlerType events (start (NewClient ""))).lastSub

/-- The world `w` with the i-th event of its k-th subscription taken out of
the stream; everything else is as in `w`. -/
def withoutEvent (w : World) (k i : Nat) : World :=
  { transport := fun k1 u =>
      if k1 = k then
        { events := (w.transport k u).events.eraseIdx i, result := (w.transport k u).result }
      else w.transport k1 u,
    clock := w.clock }

/-! ## Concrete scenarios -/

/-- The type `events.RecentChangeEvent`. -/
def RecentChangeEvent : GoType := GoType.named "events.RecentChangeEvent"

/-- A stand-in for `json.Unmarshal` that keeps the `id` field of a record:
the payload `{}` decodes to 0, a payload `{"id":d}` with one decimal digit
decodes to that digit, and anything else is a syntax error. -/
def decodeID : Decoder Nat := fun _ data =>
  match data with
  | [0x7b, 0x7d] => Except.ok 0
  | [0x7b, 0x22, 0x69, 0x64, 0x22, 0x3a, d, 0x7d] =>
    if 0x30 ≤ d.toNat ∧ d.toNat ≤ 0x39 then Except.ok (d.toNat - 0x30)
    else Except.error "invalid character"
  | _ => Except.error "invalid character"

/-- The payload `{"id":7}`. -/
def payload7 : List UInt8 := [0x7b, 0x22, 0x69, 0x64, 0x22, 0x3a, 0x37, 0x7d]

/-- The instant 2026-11-04T00:00:00Z, in nanoseconds since the zero `time.Time`. -/
def t0 : Int := 63929347200 * Second

/-- A server that is down: every subscription ends at once with a transport
error and yields no event; the i-th failure is observed i seconds after `t0`. -/
def deadWorld : World :=
  { transport := fun _ _ => { events := [], result := some "connection refused" },
    clock := fun i => t0 + i * Second }

/-- A server that drops the first connection: the first subscription yields
the event `{"id":7}` one second after `t0` and fails one second later; every
later subscription ends cleanly without events. -/
def flakyWorld : World :=
  { transport := fun k _ =>
      if k = 0 then { events := [{ Data := payload7, now := t0 + Second }],
                      result := some "stream error" }
      else { events := [], result := none },
    clock := fun i => t0 + 2 * Second + i * Second }

/-- A server that drops the first connection after three events, the second
of which has no data: the events arrive one, two and three seconds after
`t0`; every later subscription ends cleanly without events. -/
def noisyWorld : World :=
  { transport := fun k _ =>
      if k = 0 then { events := [{ Data := payload7, now := t0 + Second },
                                 { Data := [], now := t0 + 2 * Second },
                                 { Data := payload7, now := t0 + 3 * Second }],
                      result := some "stream error" }
      else { events := [], result := none },
    clock := fun i => t0 + 4 * Second + i * Second }

/-- A server that delivers and then drops every connection: the k-th
subscription yields the event `{"id":7}` and fails one second later; a new
connection is dropped three seconds after the previous one. -/
def liveWorld : World :=
  { transport := fun k _ =>
      { events := [{ Data := payload7, now := t0 + (3 * k) * Second }],
        result := some "stream error" },
    clock := fun i => t0 + (3 * i + 1) * Second }

/-- A client created by `NewClient` whose exported field `Since` was then set
to `2024-01-01T00:00:00Z` by the caller. -/
def resumingClient : Client :=
  { NewClient "recentchange" with Since := "2024-01-01T00:00:00Z" }

/-! ## Theorems: the endpoint builder -/

theorem escapeChar_unreserved {c : Char} (h : unreserved c = true) : escapeChar c = [c] := by
  simp [escapeChar, h]

theorem escapeByte_length (l : List UInt8) :
    (l.flatMap (fun b => ['%', upperhex (b.toNat / 16), upperhex (b.toNat % 16)])).length
      = 3 * l.length := by
  induction l with
  | nil => rfl
  | cons b l ih =>
    rw [List.flatMap_cons, List.length_append, ih]
    simp only [List.length_cons, List.length_nil]
    omega

theorem escapeChar_reserved_length {c : Char} (h : unreserved c = false) (hs : c ≠ ' ') :
    3 ≤ (escapeChar c).length := by
  have hp : 0 < c.utf8Size := Char.utf8Size_pos c
  simp only [escapeChar, h, hs, if_false, Bool.false_eq_true]
  rw [escapeByte_length, String.length_utf8EncodeChar]
  omega

theorem escapeChar_length_pos (c : Char) : 1 ≤ (escapeChar c).length := by
  by_cases h : unreserved c = true
  · simp [escapeChar_unreserved h]
  · by_cases hs : c = ' '
    · subst hs
      simp [escapeChar, unreserved]
    · have := escapeChar_reserved_length (Bool.eq_false_iff.mpr h) hs
      omega

theorem escape_length_ge (l : List Char) : l.length ≤ (l.flatMap escapeChar).length := by
  induction l with
  | nil => simp
  | cons c l ih =>
    have := escapeChar_length_pos c
    rw [List.flatMap_cons, List.length_append, List.length_cons]
    omega

theorem escape_eq_self_iff (l : List Char) :
    l.flatMap escapeChar = l ↔ ∀ c ∈ l, unreserved c = true := by
  induction l with
  | nil => simp
  | cons c l ih =>
    rw [List.flatMap_cons]
    constructor
    · intro h
      have hlen := congrArg List.length h
      rw [List.length_append, List.length_cons] at hlen
      have h1 := escapeChar_length_pos c
      have h2 := escape_length_ge l
      by_cases hu : unreserved c = true
      · rw [escapeChar_unreserved hu] at h
        have ht : l.flatMap escapeChar = l := by simpa using h
        intro d hd
        rcases List.mem_cons.mp hd with rfl | hd
        · exact hu
        · exact (ih.mp ht) d hd
      · exfalso
        have hu' : unreserved c = false := Bool.eq_false_iff.mpr hu
        by_cases hs : c = ' '
        · subst hs
          have he : escapeChar ' ' = ['+'] := by decide
          rw [he] at h
          simp at h
        · have := escapeChar_reserved_length hu' hs
          omega
    · intro h
      have hc := h c (List.mem_cons_self c l)
      have hl : ∀ d ∈ l, unreserved d = true := fun d hd => h d (List.mem_cons_of_mem c hd)
      rw [escapeChar_unreserved hc, ih.mpr hl]
      rfl

theorem string_append_left_cancel (a x y : String) : a ++ x = a ++ y ↔ x = y := by
  constructor
  · intro h
    have hd := congrArg String.data h
    rw [String.data_append, String.data_append] at hd
    exact String.ext (List.append_cancel_left hd)
  · intro h
    rw [h]

theorem url_since {client : Client} (stream : String) (h : client.Since ≠ "") :
    (url client stream).1 = client.BaseURL ++ "/" ++ stream ++ "?since=" ++ client.Since := by
  simp [url, h]

theorem url_no_since {client : Client} (stream : String) (h : client.Since = "") :
    (url client stream).1 = client.BaseURL ++ "/" ++ stream := by
  simp [url, h]

/-- C10: NewClient ignores its argument: whatever string is passed, the client
returned has BaseURL equal to DefaultURL, an empty Predicates map, an empty
Since and an empty LastTimestamp(), and its url for any stream is
DefaultURL followed by a slash and the stream name. -/
theorem C10_NewClient_ignores_argument (event stream : String) :
    NewClient event =
        { BaseURL := "https://stream.wikimedia.org/v2/stream", Predicates := [],
          Since := "", lastTimestamp := "" }
      ∧ (NewClient event).BaseURL = DefaultURL
      ∧ (NewClient event).Predicates = []
      ∧ (NewClient event).Since = ""
      ∧ LastTimestamp (NewClient event) = ""
      ∧ (url (NewClient event) stream).1 = DefaultURL ++ "/" ++ stream := by
  refine ⟨rfl, rfl, rfl, rfl, rfl, ?_⟩
  exact url_no_since stream rfl

/-- C6: url returns BaseURL, a slash and the stream name when Since is empty,
and the same followed by `?since=` and Since when Since is non-empty; the two
examples of the specification evaluate as stated; the client is returned
unchanged. -/
theorem C6_url_shape (client : Client) (stream : String) :
    (url client stream).1 =
        (if client.Since = "" then client.BaseURL ++ "/" ++ stream
         else client.BaseURL ++ "/" ++ stream ++ "?since=" ++ client.Since)
      ∧ (url client stream).2 = client
      ∧ (∀ (preds : List (String × Any)) (ts : String),
          (url { BaseURL := "https://x/stream", Predicates := preds, Since := "",
                 lastTimestamp := ts } "changes").1 = "https://x/stream/changes")
      ∧ (∀ (preds : List (String × Any)) (ts : String),
          (url { BaseURL := "https://x/stream", Predicates := preds,
                 Since := "2024-01-01T00:00:00Z", lastTimestamp := ts } "changes").1
            = "https://x/stream/changes?since=2024-01-01T00:00:00Z") := by
  refine ⟨?_, rfl, ?_, ?_⟩
  · by_cases h : client.Since = ""
    · rw [if_pos h, url_no_since stream h]
    · rw [if_neg h, url_since stream h]
  · intro preds ts
    rfl
  · intro preds ts
    rfl

/-- C7 (refuted as stated): for the cursor `2024-01-01T00:00:00+00:00` the text
after `?since=` is the cursor itself, with its `+` and `:` characters, and
not its percent-encoded form. -/
theorem C7_url_does_not_encode :
    (url { BaseURL := "https://x/stream", Predicates := [],
           Since := "2024-01-01T00:00:00+00:00", lastTimestamp := "" } "changes").1
        = "https://x/stream/changes?since=2024-01-01T00:00:00+00:00"
      ∧ QueryEscape "2024-01-01T00:00:00+00:00" = "2024-01-01T00%3A00%3A00%2B00%3A00"
      ∧ (url { BaseURL := "https://x/stream", Predicates := [],
               Since := "2024-01-01T00:00:00+00:00", lastTimestamp := "" } "changes").1
          ≠ "https://x/stream/changes?since=" ++ QueryEscape "2024-01-01T00:00:00+00:00" := by
  decide

/-- C7 (amended): url copies a non-empty cursor verbatim after `?since=`,
without percent-encoding; the result coincides with the percent-encoded URL
exactly when every character of the cursor is unreserved. -/
theorem C7_url_cursor_verbatim (client : Client) (stream : String)
    (h : client.Since ≠ "") :
    (url client stream).1 = client.BaseURL ++ "/" ++ stream ++ "?since=" ++ client.Since
      ∧ ((url client stream).1
            = client.BaseURL ++ "/" ++ stream ++ "?since=" ++ QueryEscape client.Since
          ↔ ∀ c ∈ client.Since.data, unreserved c = true) := by
  refine ⟨url_since stream h, ?_⟩
  rw [url_since stream h, string_append_left_cancel, ← escape_eq_self_iff]
  constructor
  · intro he
    have := congrArg String.data he
    simpa [QueryEscape] using this.symm
  · intro he
    apply String.ext
    simpa [QueryEscape] using he.symm

theorem C7_url_cursor_verbatim_witness :
    ("2024-01-01T00:00:00+00:00" : String) ≠ ""
      ∧ (url { BaseURL := "https://x/stream", Predicates := [],
               Since := "2024-01-01T00:00:00+00:00", lastTimestamp := "" } "changes").1
          = "https://x/stream" ++ "/" ++ "changes" ++ "?since=" ++ "2024-01-01T00:00:00+00:00" :=
  ⟨by decide,
   (C7_url_cursor_verbatim
      { BaseURL := "https://x/stream", Predicates := [],
        Since := "2024-01-01T00:00:00+00:00", lastTimestamp := "" } "changes"
      (by decide)).1⟩

/-! ## Theorems: the dispatcher -/

variable {V : Type}

theorem stripPtr_named (t : GoType) : ∃ n, stripPtr t = GoType.named n := by
  induction t with
  | named n => exact ⟨n, rfl⟩
  | ptr e ih => exact ih

theorem callback_empty (unmarshal : Decoder V) (ins : List GoType) (msg : Event)
    (s : State V) (h : msg.Data = []) : callback unmarshal ins msg s = s := by
  simp [callback, h]

theorem callback_arity (unmarshal : Decoder V) (ins : List GoType) (msg : Event)
    (s : State V) (h : ins.length ≠ 1) : callback unmarshal ins msg s = s := by
  unfold callback
  split
  · rfl
  · rfl

theorem callback_ptr (unmarshal : Decoder V) (e : GoType) (msg : Event) (s : State V) :
    callback unmarshal [GoType.ptr e] msg s = s := by
  obtain ⟨n, hn⟩ := stripPtr_named e
  unfold callback
  split
  · rfl
  · simp [stripPtr, hn]

theorem callback_error (unmarshal : Decoder V) (T : GoType) (msg : Event) (s : State V)
    (err : String) (h : unmarshal T msg.Data = Except.error err) :
    callback unmarshal [T] msg s = s := by
  unfold callback
  split
  · rfl
  · simp only [List.length_singleton, ne_eq, not_true_eq_false, if_false]
    split
    · rfl
    · rw [h]

theorem callback_named (unmarshal : Decoder V) (n : String) (msg : Event) (s : State V) :
    callback unmarshal [GoType.named n] msg s =
      match decoded unmarshal (GoType.named n) msg with
      | none => s
      | some v => { s with calls := s.calls ++ [v], lastSub := msg.now } := by
  unfold callback decoded
  by_cases h : msg.Data = []
  · simp [h]
  · have hl : ¬ msg.Data.length = 0 := by simpa using h
    simp only [hl, h, if_false, List.length_singleton, ne_eq, not_true_eq_false, stripPtr]
    cases hu : unmarshal (GoType.named n) msg.Data <;> simp

theorem deliver_nil (unmarshal : Decoder V) (ins : List GoType) (s : State V) :
    deliver unmarshal ins [] s = s := rfl

theorem deliver_cons (unmarshal : Decoder V) (ins : List GoType) (msg : Event)
    (events : List Event) (s : State V) :
    deliver unmarshal ins (msg :: events) s
      = deliver unmarshal ins events (callback unmarshal ins msg s) := rfl

theorem deliver_append (unmarshal : Decoder V) (ins : List GoType)
    (pre post : List Event) (s : State V) :
    deliver unmarshal ins (pre ++ post) s
      = deliver unmarshal ins post (deliver unmarshal ins pre s) := by
  simp [deliver, List.foldl_append]

theorem deliver_skip_all (unmarshal : Decoder V) (ins : List GoType)
    (h : ∀ msg (s : State V), callback unmarshal ins msg s = s)
    (events : List Event) (s : State V) : deliver unmarshal ins events s = s := by
  induction events generalizing s with
  | nil => rfl
  | cons msg events ih => rw [deliver_cons, h, ih]

theorem getLast_getD_cons (a d : Int) (l : List Int) :
    (a :: l).getLast?.getD d = l.getLast?.getD a := by
  cases l with
  | nil => rfl
  | cons b l =>
    rw [List.getLast?_cons_cons, List.getLast?_eq_getLast (b :: l) (List.cons_ne_nil b l)]
    rfl

theorem deliver_named (unmarshal : Decoder V) (n : String) (events : List Event)
    (s : State V) :
    deliver unmarshal [GoType.named n] events s =
      { s with
        calls := s.calls ++ events.filterMap (decoded unmarshal (GoType.named n)),
        lastSub :=
          ((events.filter
              (fun msg => (decoded unmarshal (GoType.named n) msg).isSome)).map
            Event.now).getLast?.getD s.lastSub } := by
  induction events generalizing s with
  | nil => simp [deliver]
  | cons msg events ih =>
    rw [deliver_cons, ih, callback_named]
    cases hd : decoded unmarshal (GoType.named n) msg with
    | none => simp [hd]
    | some v => simp [hd, getLast_getD_cons]

theorem deliver_skip (unmarshal : Decoder V) (ins : List GoType) (msg : Event)
    (h : ∀ s : State V, callback unmarshal ins msg s = s)
    (pre post : List Event) (s : State V) :
    deliver unmarshal ins (pre ++ msg :: post) s = deliver unmarshal ins (pre ++ post) s := by
  rw [deliver_append, deliver_cons, h, ← deliver_append]

theorem deliver_eraseIdx (unmarshal : Decoder V) (ins : List GoType) (events : List Event)
    (i : Nat)
    (h : ∀ msg, events[i]? = some msg → ∀ s : State V, callback unmarshal ins msg s = s)
    (s : State V) :
    deliver unmarshal ins (events.eraseIdx i) s = deliver unmarshal ins events s := by
  induction events generalizing i s with
  | nil => rfl
  | cons e events ih =>
    cases i with
    | zero =>
      rw [List.eraseIdx_cons_zero, deliver_cons, h e (by simp)]
    | succ i =>
      rw [List.eraseIdx_cons_succ, deliver_cons, deliver_cons]
      exact ih i (fun msg hm => h msg (by simpa using hm)) _

theorem loop_congr (w w' : World) (unmarshal : Decoder V) (stream : String)
    (handlerFunc : Handler)
    (hU : ∀ s : State V, UnmarshalJSONBasedOnStream w' unmarshal stream handlerFunc s
        = UnmarshalJSONBasedOnStream w unmarshal stream handlerFunc s)
    (hc : w'.clock = w.clock) (fuel : Nat) (s : State V) :
    loop w' unmarshal stream handlerFunc fuel s = loop w unmarshal stream handlerFunc fuel s := by
  induction fuel generalizing s with
  | zero => rfl
  | succ fuel ih =>
    simp only [loop, hU, hc, ih]


theorem callback_cases (unmarshal : Decoder V) (ins : List GoType) (msg : Event) :
    (∀ s : State V, callback unmarshal ins msg s = s)
      ∨ ∃ v, ∀ s : State V,
          callback unmarshal ins msg s = { s with calls := s.calls ++ [v], lastSub := msg.now } := by
  by_cases hl : ins.length ≠ 1
  · exact Or.inl (fun s => callback_arity unmarshal ins msg s hl)
  · obtain ⟨T, rfl⟩ := List.length_eq_one.mp (not_not.mp hl)
    cases T with
    | ptr e => exact Or.inl (fun s => callback_ptr unmarshal e msg s)
    | named n =>
      cases hd : decoded unmarshal (GoType.named n) msg with
      | none =>
        refine Or.inl (fun s => ?_)
        rw [callback_named, hd]
      | some v =>
        refine Or.inr ⟨v, fun s => ?_⟩
        rw [callback_named, hd]

theorem deliver_frame (unmarshal : Decoder V) (ins : List GoType) (events : List Event)
    (s : State V) :
    deliver unmarshal ins events s
      = { s with calls := (deliver unmarshal ins events s).calls,
                 lastSub := (deliver unmarshal ins events s).lastSub } := by
  induction events generalizing s with
  | nil => rfl
  | cons msg events ih =>
    rw [deliver_cons]
    rcases callback_cases unmarshal ins msg with h | ⟨v, h⟩
    · rw [h]
      exact ih s
    · rw [h, ih]

theorem deliver_lastSub_congr (unmarshal : Decoder V) (ins : List GoType)
    (events : List Event) (s s1 : State V) (h : s.lastSub = s1.lastSub) :
    (deliver unmarshal ins events s).lastSub = (deliver unmarshal ins events s1).lastSub := by
  induction events generalizing s s1 with
  | nil => exact h
  | cons msg events ih =>
    rw [deliver_cons, deliver_cons]
    rcases callback_cases unmarshal ins msg with hc | ⟨v, hc⟩
    · rw [hc, hc]
      exact ih s s1 h
    · rw [hc, hc]
      exact ih _ _ rfl

theorem Unmarshal_func (w : World) (unmarshal : Decoder V) (stream : String)
    (ins : List GoType) (s : State V) :
    UnmarshalJSONBasedOnStream w unmarshal stream (Handler.func ins) s =
      ((w.transport s.opened.length (url s.client stream).1).result,
       deliver unmarshal ins (w.transport s.opened.length (url s.client stream).1).events
         { s with opened := s.opened ++ [(url s.client stream).1] }) := rfl

theorem Unmarshal_nonFunc (w : World) (unmarshal : Decoder V) (stream : String)
    (s : State V) :
    UnmarshalJSONBasedOnStream w unmarshal stream Handler.nonFunc s =
      (some "handler must be a function", s) := rfl

/-- C1 (refuted as stated): with a handler that takes `*RecentChangeEvent`, an
event whose non-empty data decodes into that type is dropped: the handler is
not called and the liveness timestamp stays at its zero value. -/
theorem C1_pointer_handler_never_called :
    payload7 ≠ []
      ∧ decodeID (GoType.ptr RecentChangeEvent) payload7 = Except.ok 7
      ∧ (flakyWorld.transport 0 "https://stream.wikimedia.org/v2/stream/recentchange").events
          = [{ Data := payload7, now := t0 + Second }]
      ∧ (UnmarshalJSONBasedOnStream flakyWorld decodeID "recentchange"
          (Handler.func [GoType.ptr RecentChangeEvent]) (start (NewClient ""))).2.calls = []
      ∧ (UnmarshalJSONBasedOnStream flakyWorld decodeID "recentchange"
          (Handler.func [GoType.ptr RecentChangeEvent]) (start (NewClient ""))).2.lastSub = 0
      ∧ (UnmarshalJSONBasedOnStream flakyWorld decodeID "recentchange"
          (Handler.func [RecentChangeEvent]) (start (NewClient ""))).2.calls = [7] :=
  ⟨by decide, rfl, rfl, rfl, rfl, rfl⟩

/-- C1 (amended): for a unary handler whose parameter type is not a pointer
type, one subscription calls the handler exactly once for each event whose
non-empty data decodes into that type, with the decoded value and in arrival
order, and nothing else; each such call is followed by setting the liveness
timestamp to the clock reading, so at the end it holds the reading of the
last event delivered. -/
theorem C1_dispatch_non_pointer (w : World) (unmarshal : Decoder V) (stream n : String)
    (s : State V) :
    (UnmarshalJSONBasedOnStream w unmarshal stream
        (Handler.func [GoType.named n]) s).2.calls
      = s.calls ++
          (w.transport s.opened.length (url s.client stream).1).events.filterMap
            (decoded unmarshal (GoType.named n))
    ∧ (UnmarshalJSONBasedOnStream w unmarshal stream
        (Handler.func [GoType.named n]) s).2.lastSub
      = (((w.transport s.opened.length (url s.client stream).1).events.filter
            (fun msg => (decoded unmarshal (GoType.named n) msg).isSome)).map
          Event.now).getLast?.getD s.lastSub
    ∧ (∀ (msg : Event) (v : V) (st : State V),
        msg.Data ≠ [] → unmarshal (GoType.named n) msg.Data = Except.ok v →
        callback unmarshal [GoType.named n] msg st
          = { st with calls := st.calls ++ [v], lastSub := msg.now }) := by
  refine ⟨?_, ?_, ?_⟩
  · rw [Unmarshal_func, deliver_named]
  · rw [Unmarshal_func, deliver_named]
  · intro msg v st hne hok
    rw [callback_named]
    simp [decoded, hne, hok]

theorem C1_dispatch_non_pointer_witness :
    payload7 ≠ []
      ∧ decodeID (GoType.named "events.RecentChangeEvent") payload7 = Except.ok 7
      ∧ callback decodeID [GoType.named "events.RecentChangeEvent"]
          { Data := payload7, now := t0 + Second } (start (NewClient ""))
        = { (start (NewClient "") : State Nat) with
            calls := (start (NewClient "") : State Nat).calls ++ [7],
            lastSub := t0 + Second } :=
  ⟨by decide, rfl,
   (C1_dispatch_non_pointer flakyWorld decodeID "recentchange" "events.RecentChangeEvent"
      (start (NewClient ""))).2.2
      { Data := payload7, now := t0 + Second } 7 (start (NewClient ""))
      (by decide) rfl⟩

/-- C4 (refuted as stated): neither kind of malformed handler makes
GetStreamData fail at once.  With a handler that takes no parameter, the
subscription is opened, the loop sleeps and retries after the transport
error, a second subscription is opened, and the nil error of the clean end
is returned.  With a handler that is not a function, no error has been
returned after two loop iterations: the loop has slept twice and is about to
try a third time. -/
theorem C4_malformed_handler_not_rejected :
    (GetStreamData flakyWorld decodeID (NewClient "") "recentchange"
        (Handler.func []) 2).1 = Outcome.returned none
      ∧ (GetStreamData flakyWorld decodeID (NewClient "") "recentchange"
          (Handler.func []) 2).2.opened
        = ["https://stream.wikimedia.org/v2/stream/recentchange",
           "https://stream.wikimedia.org/v2/stream/recentchange"]
      ∧ (GetStreamData flakyWorld decodeID (NewClient "") "recentchange"
          (Handler.func []) 2).2.slept = [100000000]
      ∧ (GetStreamData flakyWorld decodeID (NewClient "") "recentchange"
          (Handler.func []) 2).2.calls = []
      ∧ (GetStreamData flakyWorld decodeID (NewClient "") "recentchange"
          Handler.nonFunc 2).1 = Outcome.running
      ∧ (GetStreamData flakyWorld decodeID (NewClient "") "recentchange"
          Handler.nonFunc 2).2.slept = [100000000, 100000000]
      ∧ (GetStreamData flakyWorld decodeID (NewClient "") "recentchange"
          Handler.nonFunc 2).2.iter = 2
      ∧ (GetStreamData flakyWorld decodeID (NewClient "") "recentchange"
          Handler.nonFunc 2).2.opened = [] :=
  ⟨rfl, rfl, rfl, rfl, rfl, rfl, rfl, rfl⟩

theorem loop_nonFunc (w : World) (unmarshal : Decoder V) (stream : String) (fuel : Nat)
    (s : State V) :
    (loop w unmarshal stream Handler.nonFunc fuel s).2.opened = s.opened
      ∧ (loop w unmarshal stream Handler.nonFunc fuel s).2.calls = s.calls := by
  induction fuel generalizing s with
  | zero => exact ⟨rfl, rfl⟩
  | succ fuel ih =>
    simp only [loop, Unmarshal_nonFunc]
    split
    · split
      · exact ⟨rfl, rfl⟩
      · exact ih _
    · split
      · exact ⟨rfl, rfl⟩
      · exact ih _

theorem Duration_attempt_le (b : Backoff) : b.Duration.2.attempt ≤ b.attempt + 1 := by
  simp only [Backoff.Duration]
  exact Nat.mod_le _ _

theorem loop_nonFunc_first (w : World) (unmarshal : Decoder V) (stream : String)
    (client : Client) :
    (loop w unmarshal stream Handler.nonFunc 1 (start client)).1 = Outcome.running
      ∧ (loop w unmarshal stream Handler.nonFunc 1 (start client)).2.slept = [100000000]
      ∧ (loop w unmarshal stream Handler.nonFunc 1 (start client)).2.attempts = [1]
      ∧ (loop w unmarshal stream Handler.nonFunc 1 (start client)).2.iter = 1
      ∧ (loop w unmarshal stream Handler.nonFunc 1 (start client)).2.client
          = { client with Since := client.lastTimestamp } := by
  simp only [loop, Unmarshal_nonFunc]
  by_cases hr : timeSince (w.clock (start client : State V).iter) 0 ≥ resetInterval
  · simp only [start] at hr
    simp only [start, hr, if_true]
    exact ⟨rfl, rfl, rfl, rfl, rfl⟩
  · simp only [start] at hr
    simp only [start, hr, if_false]
    exact ⟨rfl, rfl, rfl, rfl, rfl⟩

theorem loop_nonFunc_outcome (w : World) (unmarshal : Decoder V) (stream : String)
    (fuel : Nat) (s : State V) (h : s.bOff.attempt ≤ s.slept.length) :
    (loop w unmarshal stream Handler.nonFunc fuel s).1 = Outcome.running
      ∨ ((loop w unmarshal stream Handler.nonFunc fuel s).1
            = Outcome.returned (some "handler must be a function")
          ∧ retries ≤ (loop w unmarshal stream Handler.nonFunc fuel s).2.slept.length) := by
  induction fuel generalizing s with
  | zero => exact Or.inl rfl
  | succ fuel ih =>
    simp only [loop, Unmarshal_nonFunc]
    by_cases hr : timeSince (w.clock s.iter) 0 ≥ resetInterval
    · simp only [hr, if_true]
      by_cases hb : (Backoff.Reset s.bOff).Duration.2.Attempt ≥ retries
      · exfalso
        simp [Backoff.Reset, Backoff.Duration, Backoff.Attempt, retries] at hb
      · simp only [hb, if_false]
        apply ih
        show (Backoff.Reset s.bOff).Duration.2.attempt ≤ (s.slept ++ [_]).length
        rw [List.length_append, List.length_singleton]
        have := Duration_attempt_le (Backoff.Reset s.bOff)
        simp only [Backoff.Reset] at this ⊢
        omega
    · simp only [hr, if_false]
      have hle : s.bOff.Duration.2.attempt ≤ (s.slept ++ [s.bOff.Duration.1]).length := by
        rw [List.length_append, List.length_singleton]
        have := Duration_attempt_le s.bOff
        omega
      by_cases hb : s.bOff.Duration.2.Attempt ≥ retries
      · simp only [hb, if_true]
        right
        refine ⟨?_, ?_⟩
        · first | rfl | trivial
        · show retries ≤ (s.slept ++ [s.bOff.Duration.1]).length
          exact le_trans hb hle
      · simp only [hb, if_false]
        exact ih _ hle

theorem Unmarshal_arity (w : World) (unmarshal : Decoder V) (stream : String)
    (ins : List GoType) (s : State V) (h : ins.length ≠ 1) :
    UnmarshalJSONBasedOnStream w unmarshal stream (Handler.func ins) s
      = ((w.transport s.opened.length (url s.client stream).1).result,
         { s with opened := s.opened ++ [(url s.client stream).1] }) := by
  rw [Unmarshal_func, deliver_skip_all unmarshal ins
    (fun msg st => callback_arity unmarshal ins msg st h)]

theorem loop_arity_calls (w : World) (unmarshal : Decoder V) (stream : String)
    (ins : List GoType) (h : ins.length ≠ 1) (fuel : Nat) (s : State V) :
    (loop w unmarshal stream (Handler.func ins) fuel s).2.calls = s.calls := by
  induction fuel generalizing s with
  | zero => rfl
  | succ fuel ih =>
    simp only [loop, Unmarshal_arity w unmarshal stream ins _ h]
    split
    · rfl
    · split
      · split
        · rfl
        · rw [ih]
      · split
        · rfl
        · rw [ih]

theorem loop_opened_extends (w : World) (unmarshal : Decoder V) (stream : String)
    (handlerFunc : Handler) (fuel : Nat) (s : State V) :
    ∃ rest, (loop w unmarshal stream handlerFunc fuel s).2.opened = s.opened ++ rest := by
  induction fuel generalizing s with
  | zero => exact ⟨[], (List.append_nil _).symm⟩
  | succ fuel ih =>
    have hU : ∃ r1, (UnmarshalJSONBasedOnStream w unmarshal stream handlerFunc
        { s with lastSub := 0 }).2.opened = s.opened ++ r1 := by
      cases handlerFunc with
      | nonFunc => exact ⟨[], (List.append_nil _).symm⟩
      | func ins =>
        refine ⟨[(url s.client stream).1], ?_⟩
        rw [Unmarshal_func, deliver_frame]
    obtain ⟨r1, hr1⟩ := hU
    simp only [loop]
    split
    · exact ⟨r1, hr1⟩
    · split
      · split
        · exact ⟨r1, hr1⟩
        · obtain ⟨r2, hr2⟩ := ih
            { client := _, bOff := _, lastSub := _, opened := _, calls := _, slept := _,
              resets := _, attempts := _, iter := _ }
          refine ⟨r1 ++ r2, ?_⟩
          rw [hr2]
          simp only
          rw [hr1, List.append_assoc]
      · split
        · exact ⟨r1, hr1⟩
        · obtain ⟨r2, hr2⟩ := ih
            { client := _, bOff := _, lastSub := _, opened := _, calls := _, slept := _,
              resets := _, attempts := _, iter := _ }
          refine ⟨r1 ++ r2, ?_⟩
          rw [hr2]
          simp only
          rw [hr1, List.append_assoc]

theorem loop_arity_opened (w : World) (unmarshal : Decoder V) (stream : String)
    (ins : List GoType) (fuel : Nat) (s : State V) :
    ∃ rest, (loop w unmarshal stream (Handler.func ins) (fuel + 1) s).2.opened
      = s.opened ++ (url s.client stream).1 :: rest := by
  have hU : (UnmarshalJSONBasedOnStream w unmarshal stream (Handler.func ins)
      { s with lastSub := 0 }).2.opened = s.opened ++ [(url s.client stream).1] := by
    rw [Unmarshal_func, deliver_frame]
  simp only [loop]
  split
  · exact ⟨[], hU⟩
  · split
    · split
      · exact ⟨[], hU⟩
      · obtain ⟨r2, hr2⟩ := loop_opened_extends w unmarshal stream (Handler.func ins) fuel
          { client := _, bOff := _, lastSub := _, opened := _, calls := _, slept := _,
            resets := _, attempts := _, iter := _ }
        refine ⟨r2, ?_⟩
        rw [hr2]
        simp only
        rw [hU, List.append_assoc]
        rfl
    · split
      · exact ⟨[], hU⟩
      · obtain ⟨r2, hr2⟩ := loop_opened_extends w unmarshal stream (Handler.func ins) fuel
          { client := _, bOff := _, lastSub := _, opened := _, calls := _, slept := _,
            resets := _, attempts := _, iter := _ }
        refine ⟨r2, ?_⟩
        rw [hr2]
        simp only
        rw [hU, List.append_assoc]
        rfl

/-- C4 (amended): a handler that is not a function makes every call of
UnmarshalJSONBasedOnStream return the error "handler must be a function"
with the state untouched, so GetStreamData opens no subscription and calls no
handler however long it runs.  That error is not returned at once: it takes
the path of a transport error, so the first iteration sleeps 100ms and goes
round the loop again, and if GetStreamData returns at all it returns that
error after at least three sleeps.  A function handler whose number of
parameters is not one is not rejected: the subscription is opened, its result
is the transport's, and every event is dropped without a handler call and
without touching the liveness timestamp, so GetStreamData opens its first
subscription at the client's URL and never calls the handler. -/
theorem C4_handler_shape (w : World) (unmarshal : Decoder V) (stream : String) :
    (∀ s : State V,
        UnmarshalJSONBasedOnStream w unmarshal stream Handler.nonFunc s
          = (some "handler must be a function", s))
    ∧ (∀ (client : Client) (fuel : Nat),
        (GetStreamData w unmarshal client stream Handler.nonFunc fuel).2.opened = []
        ∧ (GetStreamData w unmarshal client stream Handler.nonFunc fuel).2.calls
            = ([] : List V))
    ∧ (∀ (ins : List GoType) (s : State V), ins.length ≠ 1 →
        UnmarshalJSONBasedOnStream w unmarshal stream (Handler.func ins) s
          = ((w.transport s.opened.length (url s.client stream).1).result,
             { s with opened := s.opened ++ [(url s.client stream).1] }))
    ∧ (∀ client : Client,
        (GetStreamData w unmarshal client stream Handler.nonFunc 1).1 = Outcome.running
        ∧ (GetStreamData w unmarshal client stream Handler.nonFunc 1).2.slept = [100000000]
        ∧ (GetStreamData w unmarshal client stream Handler.nonFunc 1).2.attempts = [1]
        ∧ (GetStreamData w unmarshal client stream Handler.nonFunc 1).2.iter = 1
        ∧ (GetStreamData w unmarshal client stream Handler.nonFunc 1).2.client
            = { client with Since := client.lastTimestamp })
    ∧ (∀ (client : Client) (fuel : Nat),
        (GetStreamData w unmarshal client stream Handler.nonFunc fuel).1 = Outcome.running
        ∨ ((GetStreamData w unmarshal client stream Handler.nonFunc fuel).1
              = Outcome.returned (some "handler must be a function")
            ∧ retries ≤
              (GetStreamData w unmarshal client stream Handler.nonFunc fuel).2.slept.length))
    ∧ (∀ (ins : List GoType) (client : Client) (fuel : Nat), ins.length ≠ 1 →
        (GetStreamData w unmarshal client stream (Handler.func ins) fuel).2.calls
            = ([] : List V)
        ∧ ∃ rest,
            (GetStreamData w unmarshal client stream (Handler.func ins) (fuel + 1)).2.opened
              = (url client stream).1 :: rest) := by
  refine ⟨fun s => rfl, ?_, ?_, ?_, ?_, ?_⟩
  · intro client fuel
    exact loop_nonFunc w unmarshal stream fuel (start client)
  · intro ins s h
    exact Unmarshal_arity w unmarshal stream ins s h
  · intro client
    exact loop_nonFunc_first w unmarshal stream client
  · intro client fuel
    exact loop_nonFunc_outcome w unmarshal stream fuel (start client) (Nat.le_refl 0)
  · intro ins client fuel h
    refine ⟨loop_arity_calls w unmarshal stream ins h fuel (start client), ?_⟩
    obtain ⟨rest, hrest⟩ := loop_arity_opened w unmarshal stream ins fuel (start client)
    exact ⟨rest, hrest⟩

theorem C4_handler_shape_witness :
    ([] : List GoType).length ≠ 1
      ∧ UnmarshalJSONBasedOnStream flakyWorld decodeID "recentchange" (Handler.func [])
          (start (NewClient ""))
        = ((flakyWorld.transport (start (NewClient "") : State Nat).opened.length
              (url (start (NewClient "") : State Nat).client "recentchange").1).result,
           { (start (NewClient "") : State Nat) with
             opened := (start (NewClient "") : State Nat).opened
               ++ [(url (start (NewClient "") : State Nat).client "recentchange").1] })
      ∧ (GetStreamData flakyWorld decodeID (NewClient "") "recentchange"
          (Handler.func []) 2).2.calls = []
      ∧ (GetStreamData flakyWorld decodeID (NewClient "") "recentchange"
          Handler.nonFunc 1).2.slept = [100000000] :=
  ⟨by decide,
   (C4_handler_shape flakyWorld decodeID "recentchange").2.2.1 [] (start (NewClient ""))
     (by decide),
   ((C4_handler_shape flakyWorld decodeID "recentchange").2.2.2.2.2 [] (NewClient "") 2
     (by decide)).1,
   ((C4_handler_shape flakyWorld decodeID "recentchange").2.2.2.1 (NewClient "")).2.1⟩

/-- C5: an event whose data is empty, or does not decode into the parameter
type of a unary handler, leaves the whole state as it was (no handler call,
liveness timestamp, client and backoff counter unchanged), and the run of
GetStreamData is the same as in the world where that event is not in the
stream: same outcome and same final state. -/
theorem C5_skipped_event_is_invisible (w : World) (unmarshal : Decoder V)
    (handlerType : List GoType) (k i : Nat)
    (hskip : ∀ (u : String) (msg : Event), (w.transport k u).events[i]? = some msg →
      msg.Data = [] ∨
        ∃ T err, handlerType = [T] ∧ unmarshal T msg.Data = Except.error err) :
    (∀ (u : String) (msg : Event), (w.transport k u).events[i]? = some msg →
        ∀ s : State V, callback unmarshal handlerType msg s = s)
    ∧ (∀ (u : String) (s : State V),
        deliver unmarshal handlerType ((w.transport k u).events.eraseIdx i) s
          = deliver unmarshal handlerType (w.transport k u).events s)
    ∧ (∀ (client : Client) (stream : String) (fuel : Nat),
        GetStreamData (withoutEvent w k i) unmarshal client stream
            (Handler.func handlerType) fuel
          = GetStreamData w unmarshal client stream (Handler.func handlerType) fuel) := by
  have hcb : ∀ (u : String) (msg : Event), (w.transport k u).events[i]? = some msg →
      ∀ s : State V, callback unmarshal handlerType msg s = s := by
    intro u msg hm s
    rcases hskip u msg hm with h | ⟨T, err, hT, herr⟩
    · exact callback_empty unmarshal handlerType msg s h
    · rw [hT]
      exact callback_error unmarshal T msg s err herr
  have hdel : ∀ (u : String) (s : State V),
      deliver unmarshal handlerType ((w.transport k u).events.eraseIdx i) s
        = deliver unmarshal handlerType (w.transport k u).events s :=
    fun u s => deliver_eraseIdx unmarshal handlerType _ i (hcb u) s
  refine ⟨hcb, hdel, ?_⟩
  intro client stream fuel
  apply loop_congr
  · intro s
    rw [Unmarshal_func, Unmarshal_func]
    by_cases hk : s.opened.length = k
    · simp only [withoutEvent, hk, if_true]
      rw [hdel]
    · simp only [withoutEvent, hk, if_false]
  · rfl


theorem C5_skipped_event_is_invisible_witness :
    (∀ (u : String) (msg : Event), (noisyWorld.transport 0 u).events[1]? = some msg →
        msg.Data = [] ∨
          ∃ T err, [RecentChangeEvent] = [T] ∧ decodeID T msg.Data = Except.error err)
      ∧ GetStreamData (withoutEvent noisyWorld 0 1) decodeID (NewClient "") "recentchange"
            (Handler.func [RecentChangeEvent]) 2
          = GetStreamData noisyWorld decodeID (NewClient "") "recentchange"
            (Handler.func [RecentChangeEvent]) 2 :=
  have h : ∀ (u : String) (msg : Event), (noisyWorld.transport 0 u).events[1]? = some msg →
      msg.Data = [] ∨
        ∃ T err, [RecentChangeEvent] = [T] ∧ decodeID T msg.Data = Except.error err :=
    fun _ msg hm => Or.inl (by
      have hm2 : msg = { Data := [], now := t0 + 2 * Second } := by
        simpa [noisyWorld] using hm.symm
      rw [hm2])
  ⟨h, (C5_skipped_event_is_invisible noisyWorld decodeID [RecentChangeEvent] 0 1 h).2.2
        (NewClient "") "recentchange" 2⟩

/-! ## Theorems: the retry loop -/

theorem timeSince_zero_ge {now : Int} (h : resetInterval ≤ now) :
    resetInterval ≤ timeSince now 0 := by
  simp only [timeSince, maxDuration, minDuration, resetInterval, Minute, Second] at *
  split_ifs <;> omega

theorem deadWorld_clock_ge (i : Nat) : resetInterval ≤ deadWorld.clock i := by
  simp only [deadWorld, t0, resetInterval, Minute, Second]
  omega

theorem deadWorld_step (unmarshal : Decoder V) (stream : String) (ins : List GoType)
    (fuel : Nat) (s : State V) :
    loop deadWorld unmarshal stream (Handler.func ins) (fuel + 1) s
      = loop deadWorld unmarshal stream (Handler.func ins) fuel
          { client := { s.client with Since := s.client.lastTimestamp },
            bOff := { attempt := 1 }, lastSub := 0,
            opened := s.opened ++ [(url s.client stream).1], calls := s.calls,
            slept := s.slept ++ [100000000], resets := s.resets + 1,
            attempts := s.attempts ++ [1], iter := s.iter + 1 } := by
  have hc := timeSince_zero_ge (deadWorld_clock_ge s.iter)
  have ht : (deadWorld.transport s.opened.length (url s.client stream).1)
      = { events := [], result := some "connection refused" } := rfl
  simp only [loop, Unmarshal_func, ht, deliver_nil]
  simp only [ge_iff_le, hc, if_true]
  rfl


theorem deadWorld_loop (unmarshal : Decoder V) (stream : String) (ins : List GoType)
    (fuel : Nat) (s : State V) :
    (loop deadWorld unmarshal stream (Handler.func ins) fuel s).1 = Outcome.running
      ∧ (loop deadWorld unmarshal stream (Handler.func ins) fuel s).2.attempts
          = s.attempts ++ List.replicate fuel 1
      ∧ (loop deadWorld unmarshal stream (Handler.func ins) fuel s).2.opened.length
          = s.opened.length + fuel
      ∧ (loop deadWorld unmarshal stream (Handler.func ins) fuel s).2.resets
          = s.resets + fuel
      ∧ (loop deadWorld unmarshal stream (Handler.func ins) fuel s).2.calls = s.calls := by
  induction fuel generalizing s with
  | zero => simp [loop]
  | succ fuel ih =>
    rw [deadWorld_step]
    obtain ⟨h1, h2, h3, h4, h5⟩ := ih
      { client := { s.client with Since := s.client.lastTimestamp },
        bOff := { attempt := 1 }, lastSub := 0,
        opened := s.opened ++ [(url s.client stream).1], calls := s.calls,
        slept := s.slept ++ [100000000], resets := s.resets + 1,
        attempts := s.attempts ++ [1], iter := s.iter + 1 }
    refine ⟨h1, ?_, ?_, ?_, h5⟩
    · rw [h2, List.replicate_succ, List.append_assoc]
      rfl
    · rw [h3]
      show (s.opened ++ [(url s.client stream).1]).length + fuel = s.opened.length + (fuel + 1)
      rw [List.length_append, List.length_singleton]
      omega
    · rw [h4]
      show s.resets + 1 + fuel = s.resets + (fuel + 1)
      omega

theorem Unmarshal_attempt (w : World) (unmarshal : Decoder V) (stream : String)
    (ins : List GoType) (s : State V) :
    UnmarshalJSONBasedOnStream w unmarshal stream (Handler.func ins) { s with lastSub := 0 }
      = ((w.transport s.opened.length (url s.client stream).1).result,
         { s with
           lastSub := lastDelivery unmarshal ins
             (w.transport s.opened.length (url s.client stream).1).events,
           calls := (deliver unmarshal ins
             (w.transport s.opened.length (url s.client stream).1).events
             { s with lastSub := 0, opened := s.opened ++ [(url s.client stream).1] }).calls,
           opened := s.opened ++ [(url s.client stream).1] }) := by
  have h := deliver_lastSub_congr unmarshal ins
    (w.transport s.opened.length (url s.client stream).1).events
    { s with lastSub := 0, opened := s.opened ++ [(url s.client stream).1] }
    (start (NewClient "")) rfl
  rw [Unmarshal_func, deliver_frame, lastDelivery, ← h]

theorem loop_fail (w : World) (unmarshal : Decoder V) (stream : String) (ins : List GoType)
    (fuel : Nat) (s : State V) (e : String) (n : Nat)
    (hres : (w.transport s.opened.length (url s.client stream).1).result = some e)
    (hn : n = if timeSince (w.clock s.iter)
          (lastDelivery unmarshal ins
            (w.transport s.opened.length (url s.client stream).1).events) ≥ resetInterval
        then 1 else s.bOff.attempt + 1)
    (hlt : n < 2 ^ 64) :
    (retries ≤ n → ∃ s1 : State V,
        loop w unmarshal stream (Handler.func ins) (fuel + 1) s
          = (Outcome.returned (some e), s1)
        ∧ s1.attempts = s.attempts ++ [n]
        ∧ s1.opened = s.opened ++ [(url s.client stream).1])
    ∧ (n < retries → ∃ s1 : State V,
        loop w unmarshal stream (Handler.func ins) (fuel + 1) s
          = loop w unmarshal stream (Handler.func ins) fuel s1
        ∧ s1.bOff.attempt = n
        ∧ s1.attempts = s.attempts ++ [n]
        ∧ s1.opened = s.opened ++ [(url s.client stream).1]
        ∧ s1.iter = s.iter + 1
        ∧ s1.client = { s.client with Since := s.client.lastTimestamp }) := by
  have hmod : n % 2 ^ 64 = n := Nat.mod_eq_of_lt hlt
  by_cases hr : timeSince (w.clock s.iter)
      (lastDelivery unmarshal ins
        (w.transport s.opened.length (url s.client stream).1).events) ≥ resetInterval
  · rw [if_pos hr] at hn
    subst hn
    constructor
    · intro hge
      simp [retries] at hge
    · intro _
      refine ⟨{ client := { s.client with Since := s.client.lastTimestamp },
                bOff := { attempt := 1 },
                lastSub := lastDelivery unmarshal ins
                  (w.transport s.opened.length (url s.client stream).1).events,
                opened := s.opened ++ [(url s.client stream).1],
                calls := (deliver unmarshal ins
                  (w.transport s.opened.length (url s.client stream).1).events
                  { s with lastSub := 0,
                           opened := s.opened ++ [(url s.client stream).1] }).calls,
                slept := s.slept ++ [Backoff.ForAttempt 0],
                resets := s.resets + 1,
                attempts := s.attempts ++ [1],
                iter := s.iter + 1 }, ?_, rfl, rfl, rfl, rfl, rfl⟩
      simp only [loop, Unmarshal_attempt, hres]
      simp only [hr, if_true, Backoff.Reset, Backoff.Duration, Backoff.Attempt, retries]
      rfl
  · rw [if_neg hr] at hn
    subst hn
    constructor
    · intro hge
      refine ⟨{ client := s.client,
                bOff := { attempt := s.bOff.attempt + 1 },
                lastSub := lastDelivery unmarshal ins
                  (w.transport s.opened.length (url s.client stream).1).events,
                opened := s.opened ++ [(url s.client stream).1],
                calls := (deliver unmarshal ins
                  (w.transport s.opened.length (url s.client stream).1).events
                  { s with lastSub := 0,
                           opened := s.opened ++ [(url s.client stream).1] }).calls,
                slept := s.slept ++ [Backoff.ForAttempt s.bOff.attempt],
                resets := s.resets,
                attempts := s.attempts ++ [s.bOff.attempt + 1],
                iter := s.iter }, ?_, rfl, rfl⟩
      simp only [loop, Unmarshal_attempt, hres]
      simp only [hr, if_false, Backoff.Duration, Backoff.Attempt, hmod, hge, if_true,
        ge_iff_le]
    · intro hlt2
      have hng : ¬ (s.bOff.attempt + 1 ≥ retries) := by omega
      refine ⟨{ client := { s.client with Since := s.client.lastTimestamp },
                bOff := { attempt := s.bOff.attempt + 1 },
                lastSub := lastDelivery unmarshal ins
                  (w.transport s.opened.length (url s.client stream).1).events,
                opened := s.opened ++ [(url s.client stream).1],
                calls := (deliver unmarshal ins
                  (w.transport s.opened.length (url s.client stream).1).events
                  { s with lastSub := 0,
                           opened := s.opened ++ [(url s.client stream).1] }).calls,
                slept := s.slept ++ [Backoff.ForAttempt s.bOff.attempt],
                resets := s.resets,
                attempts := s.attempts ++ [s.bOff.attempt + 1],
                iter := s.iter + 1 }, ?_, rfl, rfl, rfl, rfl, rfl⟩
      simp only [loop, Unmarshal_attempt, hres]
      simp only [hr, if_false, Backoff.Duration, Backoff.Attempt, hmod, hng]

/-- Outside the zero-time case the retry ceiling works as documented: when
three subscriptions in a row end with a transport error and, at the second
and third failure, the last event delivered in that attempt is less than
resetInterval old, the attempt counter reads 1, 2, 3, exactly three
subscriptions are opened, and the third error is returned (for any fuel of
at least three iterations). -/
theorem three_failures_exhaust_retries (w : World) (unmarshal : Decoder V)
    (client : Client) (stream : String) (ins : List GoType) (e0 e1 e2 : String)
    (extra : Nat)
    (h0 : (w.transport 0 (url client stream).1).result = some e0)
    (h1 : (w.transport 1
        (url { client with Since := client.lastTimestamp } stream).1).result = some e1)
    (h2 : (w.transport 2
        (url { client with Since := client.lastTimestamp } stream).1).result = some e2)
    (r1 : timeSince (w.clock 1) (lastDelivery unmarshal ins (w.transport 1
        (url { client with Since := client.lastTimestamp } stream).1).events) < resetInterval)
    (r2 : timeSince (w.clock 2) (lastDelivery unmarshal ins (w.transport 2
        (url { client with Since := client.lastTimestamp } stream).1).events) < resetInterval) :
    (GetStreamData w unmarshal client stream (Handler.func ins) (3 + extra)).1
        = Outcome.returned (some e2)
      ∧ (GetStreamData w unmarshal client stream (Handler.func ins) (3 + extra)).2.attempts
        = [1, 2, 3]
      ∧ (GetStreamData w unmarshal client stream (Handler.func ins) (3 + extra)).2.opened
        = [(url client stream).1,
           (url { client with Since := client.lastTimestamp } stream).1,
           (url { client with Since := client.lastTimestamp } stream).1] := by
  have hf : 3 + extra = (extra + 2) + 1 := by omega
  -- first failure: the counter goes from 0 to 1 whether or not it is reset
  obtain ⟨s1, hs1, hb1, ha1, ho1, hi1, hc1⟩ :=
    (loop_fail w unmarshal stream ins (extra + 2) (start client) e0 1 h0
      (by split_ifs <;> rfl) (by norm_num)).2 (by decide)
  -- second failure: no reset, the counter goes to 2
  have hl1 : s1.opened.length = 1 := by rw [ho1]; rfl
  have hr1 : ¬ (timeSince (w.clock s1.iter) (lastDelivery unmarshal ins
      (w.transport s1.opened.length (url s1.client stream).1).events) ≥ resetInterval) := by
    rw [hl1, hi1, hc1]
    exact not_le.mpr r1
  obtain ⟨s2, hs2, hb2, ha2, ho2, hi2, hc2⟩ :=
    (loop_fail w unmarshal stream ins (extra + 1) s1 e1 2
      (by rw [hl1, hc1]; exact h1)
      (by rw [if_neg hr1, hb1]) (by norm_num)).2 (by decide)
  -- third failure: no reset, the counter reaches the ceiling
  have hl2 : s2.opened.length = 2 := by rw [ho2, ho1]; rfl
  have hcc : s2.client = { client with Since := client.lastTimestamp } := by
    rw [hc2, hc1]
    rfl
  have hr2 : ¬ (timeSince (w.clock s2.iter) (lastDelivery unmarshal ins
      (w.transport s2.opened.length (url s2.client stream).1).events) ≥ resetInterval) := by
    rw [hl2, hi2, hi1, hcc]
    exact not_le.mpr r2
  obtain ⟨s3, hs3, ha3, ho3⟩ :=
    (loop_fail w unmarshal stream ins extra s2 e2 3
      (by rw [hl2, hcc]; exact h2)
      (by rw [if_neg hr2, hb2]) (by norm_num)).1 (by decide)
  have hrun : GetStreamData w unmarshal client stream (Handler.func ins) (3 + extra)
      = (Outcome.returned (some e2), s3) := by
    rw [GetStreamData, hf, hs1, hs2, hs3]
  rw [hrun]
  refine ⟨rfl, ?_, ?_⟩
  · show s3.attempts = [1, 2, 3]
    rw [ha3, ha2, ha1]
    rfl
  · show s3.opened = _
    rw [ho3, ho2, ho1, hcc, hc1]
    rfl

theorem three_failures_exhaust_retries_witness :
    (GetStreamData liveWorld decodeID (NewClient "") "recentchange"
        (Handler.func [RecentChangeEvent]) (3 + 0)).1 = Outcome.returned (some "stream error")
      ∧ (GetStreamData liveWorld decodeID (NewClient "") "recentchange"
          (Handler.func [RecentChangeEvent]) (3 + 0)).2.attempts = [1, 2, 3] :=
  have h := three_failures_exhaust_retries liveWorld decodeID (NewClient "") "recentchange"
    [RecentChangeEvent] "stream error" "stream error" "stream error" 0 rfl rfl rfl
    (by decide) (by decide)
  ⟨h.1, h.2.1⟩

/-- C2 (the code at the failing input): against a server that is down, where
every subscription ends with a transport error and consecutive failures are
one second apart, the attempt counter reads 1 after every failure, never 2
or 3, and GetStreamData has not returned after any number of failures: after
n loop iterations it has opened n subscriptions and reset the counter n
times.  Against a server that delivers one event before each drop, the
counter reads 1, 2, 3 and the third error is returned after three
subscriptions. -/
theorem C2_dead_server_never_exhausts_retries (fuel : Nat) :
    (∀ k u, (deadWorld.transport k u).result = some "connection refused")
      ∧ (∀ i : Nat, deadWorld.clock (i + 1) - deadWorld.clock i < resetInterval)
      ∧ (GetStreamData deadWorld decodeID (NewClient "") "recentchange"
        (Handler.func [RecentChangeEvent]) fuel).1 = Outcome.running
      ∧ (GetStreamData deadWorld decodeID (NewClient "") "recentchange"
          (Handler.func [RecentChangeEvent]) fuel).2.attempts = List.replicate fuel 1
      ∧ (GetStreamData deadWorld decodeID (NewClient "") "recentchange"
          (Handler.func [RecentChangeEvent]) fuel).2.opened.length = fuel
      ∧ (GetStreamData deadWorld decodeID (NewClient "") "recentchange"
          (Handler.func [RecentChangeEvent]) fuel).2.resets = fuel
      ∧ (GetStreamData liveWorld decodeID (NewClient "") "recentchange"
          (Handler.func [RecentChangeEvent]) 3).1 = Outcome.returned (some "stream error")
      ∧ (GetStreamData liveWorld decodeID (NewClient "") "recentchange"
          (Handler.func [RecentChangeEvent]) 3).2.attempts = [1, 2, 3]
      ∧ (GetStreamData liveWorld decodeID (NewClient "") "recentchange"
          (Handler.func [RecentChangeEvent]) 3).2.opened.length = 3 := by
  obtain ⟨h1, h2, h3, h4, _⟩ :=
    deadWorld_loop decodeID "recentchange" [RecentChangeEvent] fuel (start (NewClient ""))
  refine ⟨fun _ _ => rfl, ?_, h1, ?_, ?_, ?_, rfl, rfl, rfl⟩
  · intro i
    simp only [deadWorld, resetInterval, Minute, Second]
    push_cast
    omega
  · simpa [start] using h2
  · simpa [start] using h3
  · simpa [start] using h4

/-- C3 (the code at the failing input): the first subscription fails without
any event, so no handler call was made and lastSub is still the zero time;
the elapsed time computed from it is the largest duration, which is at least
resetInterval, and Reset is called once. -/
theorem C3_reset_before_any_delivery :
    (deadWorld.transport 0 "https://stream.wikimedia.org/v2/stream/recentchange").events = []
      ∧ (GetStreamData deadWorld decodeID (NewClient "") "recentchange"
          (Handler.func [RecentChangeEvent]) 1).2.calls = []
      ∧ (GetStreamData deadWorld decodeID (NewClient "") "recentchange"
          (Handler.func [RecentChangeEvent]) 1).2.lastSub = 0
      ∧ timeSince (deadWorld.clock 0) 0 = maxDuration
      ∧ resetInterval ≤ maxDuration
      ∧ (GetStreamData deadWorld decodeID (NewClient "") "recentchange"
          (Handler.func [RecentChangeEvent]) 1).2.resets = 1 :=
  ⟨rfl, rfl, rfl, by decide, by decide, rfl⟩

theorem callback_client (unmarshal : Decoder V) (ins : List GoType) (msg : Event)
    (s : State V) : (callback unmarshal ins msg s).client = s.client := by
  by_cases hl : ins.length ≠ 1
  · rw [callback_arity unmarshal ins msg s hl]
  · obtain ⟨T, rfl⟩ := List.length_eq_one.mp (not_not.mp hl)
    cases T with
    | ptr e => rw [callback_ptr]
    | named n =>
      rw [callback_named]
      cases decoded unmarshal (GoType.named n) msg <;> rfl

theorem deliver_client (unmarshal : Decoder V) (ins : List GoType) (events : List Event)
    (s : State V) : (deliver unmarshal ins events s).client = s.client := by
  induction events generalizing s with
  | nil => rfl
  | cons msg events ih => rw [deliver_cons, ih, callback_client]

theorem Unmarshal_client (w : World) (unmarshal : Decoder V) (stream : String)
    (handlerFunc : Handler) (s : State V) :
    (UnmarshalJSONBasedOnStream w unmarshal stream handlerFunc s).2.client = s.client := by
  cases handlerFunc with
  | nonFunc => rfl
  | func ins => rw [Unmarshal_func, deliver_client]

theorem loop_lastTimestamp (w : World) (unmarshal : Decoder V) (stream : String)
    (handlerFunc : Handler) (fuel : Nat) (s : State V) :
    (loop w unmarshal stream handlerFunc fuel s).2.client.lastTimestamp
        = s.client.lastTimestamp
      ∧ (loop w unmarshal stream handlerFunc fuel s).2.client.BaseURL = s.client.BaseURL := by
  induction fuel generalizing s with
  | zero => exact ⟨rfl, rfl⟩
  | succ fuel ih =>
    have hU := Unmarshal_client w unmarshal stream handlerFunc { s with lastSub := 0 }
    simp only [loop]
    split
    · rw [hU]
      exact ⟨rfl, rfl⟩
    · split
      · split
        · simp only
          rw [hU]
          exact ⟨rfl, rfl⟩
        · rw [(ih _).1, (ih _).2]
          simp only
          rw [hU]
          exact ⟨rfl, rfl⟩
      · split
        · simp only
          rw [hU]
          exact ⟨rfl, rfl⟩
        · rw [(ih _).1, (ih _).2]
          simp only
          rw [hU]
          exact ⟨rfl, rfl⟩


/-- C8 (the code at the failing input): a client whose Since was set to
2024-01-01T00:00:00Z opens its first subscription with that cursor; after the
first failed attempt Since is overwritten with the empty lastTimestamp, the
second subscription is opened without a cursor, and Since is empty when
GetStreamData returns. -/
theorem C8_retry_empties_since :
    resumingClient.Since = "2024-01-01T00:00:00Z"
      ∧ (GetStreamData flakyWorld decodeID resumingClient "recentchange"
          (Handler.func [RecentChangeEvent]) 2).1 = Outcome.returned none
      ∧ (GetStreamData flakyWorld decodeID resumingClient "recentchange"
          (Handler.func [RecentChangeEvent]) 2).2.opened
        = ["https://stream.wikimedia.org/v2/stream/recentchange?since=2024-01-01T00:00:00Z",
           "https://stream.wikimedia.org/v2/stream/recentchange"]
      ∧ (GetStreamData flakyWorld decodeID resumingClient "recentchange"
          (Handler.func [RecentChangeEvent]) 2).2.client.Since = "" :=
  ⟨rfl, rfl, rfl, rfl⟩

/-- C9 (the code at the failing input): the first subscription delivers the
event with id 7 to the handler and then fails; LastTimestamp() is still the
empty string, the retry sets Since to the empty string and the second
subscription is opened without `?since=`.  Nothing assigns lastTimestamp: for
every world, handler and number of iterations, a client made by NewClient
still answers the empty string. -/
theorem C9_lastTimestamp_never_set :
    (GetStreamData flakyWorld decodeID (NewClient "") "recentchange"
        (Handler.func [RecentChangeEvent]) 2).2.calls = [7]
      ∧ LastTimestamp (GetStreamData flakyWorld decodeID (NewClient "") "recentchange"
          (Handler.func [RecentChangeEvent]) 2).2.client = ""
      ∧ (GetStreamData flakyWorld decodeID (NewClient "") "recentchange"
          (Handler.func [RecentChangeEvent]) 2).2.client.Since = ""
      ∧ (GetStreamData flakyWorld decodeID (NewClient "") "recentchange"
          (Handler.func [RecentChangeEvent]) 2).2.opened
        = ["https://stream.wikimedia.org/v2/stream/recentchange",
           "https://stream.wikimedia.org/v2/stream/recentchange"]
      ∧ (∀ (w : World) (unmarshal : Decoder Nat) (event stream : String)
          (handlerFunc : Handler) (fuel : Nat),
          LastTimestamp
            (GetStreamData w unmarshal (NewClient event) stream handlerFunc fuel).2.client
            = "") :=
  ⟨rfl, rfl, rfl, rfl, fun w unmarshal event stream handlerFunc fuel =>
    (loop_lastTimestamp w unmarshal stream handlerFunc fuel (start (NewClient event))).1⟩


end Streams
